import Mathlib

/-!
Shallow embedding of the marketgo marketplace backend (Go) for verifying its
natural-language specification.

The embedding covers:
* the JWT claim validation of `AuthService.ValidateToken` /
  `validateRegisteredClaims` (internal/server/services, auth service file);
* `AuthService.Register` / `AuthService.Authenticate` together with the store
  operations `CreateUser` and `UserByLogin` of internal/db/db.go, including the
  row/scan semantics of the pgx driver;
* `validateAd`, `DBService.CreateAd` and `DBService.Ads` of internal/db/db.go,
  with the SQL query constants (`QueryCreateAd`, `QueryGetAds`, ...) giving the
  store semantics;
* the JSON serialization shape of the `User` struct (its struct tags).

Go `map[string]interface{}` claim payloads are modelled as association lists of
a JSON-value type; JSON numbers (Go `float64`) are modelled as `Rat`, with the
Go `int64(x)` conversion modelled as truncation toward zero.  Machine integers
are modelled as `Int` (no arithmetic here approaches 2^63).  Fallible Go code
returns `Except`.
-/

namespace MarketGo

/-! ### JSON claim values (Go: `jwt.MapClaims = map[string]interface{}`) -/

/-- A JSON value as Go's encoding/json produces it inside an `interface{}`:
numbers decode to `float64` (modelled as `Rat`), strings to `string`, booleans
to `bool`.  Other shapes (arrays, objects, null) all fail the `.(float64)` /
`.(string)` type assertions exactly like `boolV` does, so one extra
constructor `otherV` stands for them. -/
inductive ClaimValue where
  | num (q : Rat)
  | str (s : String)
  | boolV (b : Bool)
  | otherV
  deriving DecidableEq, Repr

/-- A claim payload: Go `jwt.MapClaims`, an association list keyed by the claim
name.  Lookup takes the first binding, as a Go map has unique keys. -/
abbrev ClaimMap := List (String × ClaimValue)

/-- Go `claims[k]` (with the second result of the comma-ok form left to the
type-assertion helpers below). -/
def getClaim (c : ClaimMap) (k : String) : Option ClaimValue :=
  (c.find? (fun p => p.1 == k)).map Prod.snd

/-- Go type assertion `v.(float64)`: succeeds exactly on a JSON number. -/
def asNum : Option ClaimValue → Option Rat
  | some (.num q) => some q
  | _ => none

/-- Go type assertion `v.(string)`: succeeds exactly on a JSON string. -/
def asStr : Option ClaimValue → Option String
  | some (.str s) => some s
  | _ => none

/-- Go conversion `int64(x)` on a `float64`: truncation toward zero
(`Int.tdiv` is T-division, and the denominator of a `Rat` is positive). -/
def toInt64 (q : Rat) : Int := q.num.tdiv (q.den : Int)

/-! ### Auth service constants and errors -/

/-- Go constant `Issuer = "auth-services"`. -/
def Issuer : String := "auth-services"

/-- Go constant `Audience = "marketgo-api"`. -/
def Audience : String := "marketgo-api"

/-- The distinguishable errors `ValidateToken` can report after a structurally
valid parse, one per `errors.New(...)` site. -/
inductive AuthError where
  | tokenExpired
  | tokenNotYetValid
  | tokenIssuedFuture
  | invalidIssuer
  | invalidAudience
  | invalidUserID
  deriving DecidableEq, Repr

/-! ### The individual claim checks

Each definition is one `if` condition of `validateRegisteredClaims` (or, for
`subjectFails`, the `user_id` condition of `ValidateToken`), returning `true`
exactly when that condition makes the Go code return its error. -/

/-- Go: `if exp, ok := claims["exp"].(float64); !ok || int64(exp) < now`. -/
def expFails (c : ClaimMap) (now : Int) : Bool :=
  match asNum (getClaim c "exp") with
  | none => true
  | some exp => decide (toInt64 exp < now)

/-- Go: `if nbf, ok := claims["nbf"].(float64); ok && int64(nbf) > now`. -/
def nbfFails (c : ClaimMap) (now : Int) : Bool :=
  match asNum (getClaim c "nbf") with
  | none => false
  | some nbf => decide (now < toInt64 nbf)

/-- Go: `if iat, ok := claims["iat"].(float64); ok && int64(iat) > now+60`. -/
def iatFails (c : ClaimMap) (now : Int) : Bool :=
  match asNum (getClaim c "iat") with
  | none => false
  | some iat => decide (now + 60 < toInt64 iat)

/-- Go: `if iss, ok := claims["iss"].(string); !ok || iss != Issuer`. -/
def issFails (c : ClaimMap) : Bool :=
  match asStr (getClaim c "iss") with
  | none => true
  | some iss => decide (iss ≠ Issuer)

/-- Go: `if aud, ok := claims["aud"].(string); !ok || aud != Audience`. -/
def audFails (c : ClaimMap) : Bool :=
  match asStr (getClaim c "aud") with
  | none => true
  | some aud => decide (aud ≠ Audience)

/-- Go (in `ValidateToken`): `userID, ok := claims["user_id"].(float64);
if !ok || userID <= 0`.  Note the comparison is on the `float64` itself, before
the `int(userID)` conversion. -/
def subjectFails (c : ClaimMap) : Bool :=
  match asNum (getClaim c "user_id") with
  | none => true
  | some uid => decide (uid ≤ 0)

/-- Go `validateRegisteredClaims(claims)`, with `now = time.Now().Unix()`
passed explicitly: the sequential chain of claim checks, first failure wins. -/
def validateRegisteredClaims (c : ClaimMap) (now : Int) : Option AuthError :=
  if expFails c now then some .tokenExpired
  else if nbfFails c now then some .tokenNotYetValid
  else if iatFails c now then some .tokenIssuedFuture
  else if issFails c then some .invalidIssuer
  else if audFails c then some .invalidAudience
  else none

/-- The part of Go `ValidateToken` that runs after `jwt.Parse` succeeded with a
valid HS256 signature and the claims were read as a `jwt.MapClaims`: it runs
`validateRegisteredClaims` and then the `user_id` subject check, returning
`int(userID)`. -/
def validateTokenClaims (c : ClaimMap) (now : Int) : Except AuthError Int :=
  match validateRegisteredClaims c now with
  | some e => .error e
  | none =>
    match asNum (getClaim c "user_id") with
    | none => .error .invalidUserID
    | some uid => if uid ≤ 0 then .error .invalidUserID else .ok (toInt64 uid)

/-- The six checks of token validation in source order, each paired with the
error it reports: expiry, not-before, issued-in-future, issuer, audience,
subject. -/
def claimChecks (c : ClaimMap) (now : Int) : List (Bool × AuthError) :=
  [ (expFails c now, .tokenExpired),
    (nbfFails c now, .tokenNotYetValid),
    (iatFails c now, .tokenIssuedFuture),
    (issFails c, .invalidIssuer),
    (audFails c, .invalidAudience),
    (subjectFails c, .invalidUserID) ]

/-! ### Go `strings.TrimSpace` and byte length -/

/-- Go `unicode.IsSpace` on the characters `strings.TrimSpace` trims: the
ASCII/Latin-1 whitespace `'\t' '\n' '\v' '\f' '\r' ' '` plus NEL (U+0085) and
NBSP (U+00A0).  (The remaining Unicode category-Z code points, U+1680 and
beyond, do not occur in any input considered here and are left out of the
model.) -/
def goIsSpace (c : Char) : Bool :=
  c == ' ' || c == '\t' || c == '\n' || c == Char.ofNat 0x0B ||
  c == Char.ofNat 0x0C || c == '\r' || c == Char.ofNat 0x85 || c == Char.ofNat 0xA0

/-- Go `strings.TrimSpace(s)`: drop leading and trailing whitespace. -/
def trimSpace (s : String) : String :=
  ⟨((s.data.dropWhile goIsSpace).reverse.dropWhile goIsSpace).reverse⟩

/-- Go `len(s)` on a string: its byte length in UTF-8. -/
def goLen (s : String) : Nat := s.utf8ByteSize

/-! ### Model of Go `net/url.ParseRequestURI`

`validateAd` calls the standard library's `url.ParseRequestURI` and only looks
at whether it returns an error.  The model below is translated from that
function's code path for `viaRequest = true` (`net/url/url.go`): reject on an
ASCII control character, on an empty string, on a malformed scheme, on a
scheme-less input that is not a rooted path, on an invalid authority
(userinfo charset, port, bracketed host) and on a malformed percent escape in
userinfo, host or path.  Query strings are split off unvalidated, as in Go.
(The `encodeHost`-specific escape-value check and IPv6 zone handling are not
modelled; no input considered here exercises them.) -/

/-- A control byte per Go `stringContainsCTLByte`: `< 0x20` or `0x7f`.  (UTF-8
continuation bytes of non-ASCII characters are all `≥ 0x80`, so the per-char
check is equivalent to Go's per-byte check.) -/
def isCtl (c : Char) : Bool := c.toNat < 0x20 || c.toNat == 0x7f

/-- ASCII letter, as in Go `getScheme`. -/
def isAlphaCh (c : Char) : Bool := ('a' ≤ c && c ≤ 'z') || ('A' ≤ c && c ≤ 'Z')

/-- ASCII digit. -/
def isDigitCh (c : Char) : Bool := '0' ≤ c && c ≤ '9'

/-- ASCII hex digit, as in Go `ishex`. -/
def isHexCh (c : Char) : Bool :=
  isDigitCh c || ('a' ≤ c && c ≤ 'f') || ('A' ≤ c && c ≤ 'F')

/-- Result of Go `getScheme`: a scheme with the remainder, no scheme at all,
or the `missing protocol scheme` error (a `:` at index 0). -/
inductive SchemeResult where
  | found (rest : List Char)
  | noScheme
  | badScheme
  deriving DecidableEq, Repr

/-- Go `getScheme(rawURL)`, scanning character by character; `first` is true
at index 0.  A letter continues the scheme; a digit or `+ - .` continues it
except at index 0 (no scheme); `:` ends it (error at index 0); any other
character means no scheme; running out of input means no scheme. -/
def getSchemeAux : List Char → Bool → SchemeResult
  | [], _ => .noScheme
  | c :: cs, first =>
    if isAlphaCh c then getSchemeAux cs false
    else if isDigitCh c || c == '+' || c == '-' || c == '.' then
      if first then .noScheme else getSchemeAux cs false
    else if c == ':' then
      if first then .badScheme else .found cs
    else .noScheme

/-- Go `strings.Cut(rest, "?")`: the part before the first `?` (the raw query
is stored unvalidated, so only this part matters for success). -/
def dropQuery (cs : List Char) : List Char := cs.takeWhile (fun c => c ≠ '?')

/-- Percent escapes are well formed: every `%` is followed by two hex digits
(the error path of Go `unescape`). -/
def percentOk : List Char → Bool
  | [] => true
  | '%' :: a :: b :: rest => isHexCh a && isHexCh b && percentOk rest
  | '%' :: _ => false
  | _ :: rest => percentOk rest

/-- Go `validOptionalPort(port)`: empty, or `:` followed by digits only. -/
def validOptionalPort : List Char → Bool
  | [] => true
  | ':' :: digits => digits.all isDigitCh
  | _ => false

/-- Index just after the last occurrence of `c`, if any (Go
`strings.LastIndex` shifted by one for easy `take`/`drop`). -/
def lastIdx (cs : List Char) (c : Char) : Option Nat :=
  (List.range cs.length).reverse.find? (fun i => cs.get? i == some c)

/-- Go `validUserinfo(s)`: only alphanumerics and
`- . _ : ~ ! $ & ' ( ) * + , ; = % @` may appear. -/
def validUserinfo (cs : List Char) : Bool :=
  cs.all (fun r =>
    isAlphaCh r || isDigitCh r ||
    r == '-' || r == '.' || r == '_' || r == ':' || r == '~' || r == '!' ||
    r == '$' || r == '&' || r == '\'' || r == '(' || r == ')' || r == '*' ||
    r == '+' || r == ',' || r == ';' || r == '=' || r == '%' || r == '@')

/-- Go `parseHost(host)` success: a bracketed host needs a closing `]` and a
valid optional port after it; otherwise the last `:` must start a valid port;
and percent escapes must be well formed. -/
def parseHostOk (host : List Char) : Bool :=
  (match host with
   | '[' :: _ =>
     match lastIdx host ']' with
     | none => false
     | some i => validOptionalPort (host.drop (i + 1))
   | _ =>
     match lastIdx host ':' with
     | none => true
     | some i => validOptionalPort (host.drop i)) &&
  percentOk host

/-- Go `parseAuthority(authority)` success: split at the last `@`; the
userinfo must pass `validUserinfo` and unescape, the host `parseHost`. -/
def parseAuthorityOk (auth : List Char) : Bool :=
  match lastIdx auth '@' with
  | none => parseHostOk auth
  | some i =>
    validUserinfo (auth.take i) && percentOk (auth.take i) &&
    parseHostOk (auth.drop (i + 1))

/-- Go `parse(rawURL, true)` after the scheme was split off: `hasScheme`
records whether a scheme was found.  A rest not starting with `/` is accepted
as opaque when a scheme is present and is `invalid URI for request` otherwise;
with a scheme ahead of `//`, the authority is parsed; the remaining path must
unescape. -/
def parseAfterScheme (hasScheme : Bool) (rest0 : List Char) : Bool :=
  let rest := dropQuery rest0
  match rest with
  | '/' :: '/' :: tail =>
    if hasScheme then
      parseAuthorityOk (tail.takeWhile (fun c => c ≠ '/')) &&
      percentOk (tail.dropWhile (fun c => c ≠ '/'))
    else percentOk rest
  | '/' :: _ => percentOk rest
  | _ => hasScheme

/-- Go `url.ParseRequestURI(s)` returns no error. -/
def parseRequestURIOk (s : String) : Bool :=
  let cs := s.data
  if cs.any isCtl then false
  else if cs.isEmpty then false
  else if cs == ['*'] then true
  else
    match getSchemeAux cs true with
    | .badScheme => false
    | .noScheme => parseAfterScheme false cs
    | .found rest => parseAfterScheme true rest

/-- Modelled from the spec: "if present must parse as an absolute URI" — an
absolute URI begins with an RFC 3986 scheme, `ALPHA *( ALPHA / DIGIT / "+" /
"-" / "." ) ":"`.  Used only to compare the spec's wording against the code's
actual `ParseRequestURI` check. -/
def isAbsoluteURI (s : String) : Bool :=
  match getSchemeAux s.data true with
  | .found _ => true
  | _ => false

/-! ### The ad validation of `validateAd` (internal/db/db.go) -/

/-- The distinguishable errors of the db package, one per `errors.New` in its
`var` block, plus `queryFailed` for a wrapped PostgreSQL error. -/
inductive DBError where
  | userNotFound
  | invalidSortBy
  | invalidSortOrder
  | invalidTitleLength
  | invalidTextLength
  | invalidImageURL
  | invalidPrice
  | invalidUserID
  | queryFailed (msg : String)
  deriving DecidableEq, Repr

/-- The `Ad` value passed to `CreateAd` (Go struct `db.Ad` as filled by the
caller: `ID`, `Author`, `IsMine`, `CreatedAt` are not inputs). -/
structure AdInput where
  title : String
  text : String
  imageURL : String
  price : Int
  userID : Int
  deriving DecidableEq, Repr

/-- Go: `title := strings.TrimSpace(ad.Title);
if len(title) < minTitleLength || len(title) > maxTitleLength`. -/
def titleFails (ad : AdInput) : Bool :=
  goLen (trimSpace ad.title) < 2 || goLen (trimSpace ad.title) > 100

/-- Go: `text := strings.TrimSpace(ad.Text);
if len(text) == 0 || len(text) > maxTextLength`. -/
def textFails (ad : AdInput) : Bool :=
  goLen (trimSpace ad.text) == 0 || goLen (trimSpace ad.text) > 2000

/-- Go: `if ad.ImageURL != "" { if _, err := url.ParseRequestURI(...); err != nil }`. -/
def imageFails (ad : AdInput) : Bool :=
  ad.imageURL ≠ "" && !parseRequestURIOk ad.imageURL

/-- Go: `if ad.Price < minPrice || ad.Price > maxPrice` with
`minPrice = 1`, `maxPrice = 100_000_000`. -/
def priceFails (ad : AdInput) : Bool :=
  ad.price < 1 || ad.price > 100000000

/-- Go: `if ad.UserID <= 0`. -/
def userIDFails (ad : AdInput) : Bool := ad.userID ≤ 0

/-- Go `validateAd(ad)`: the sequential field checks, first failure wins. -/
def validateAd (ad : AdInput) : Option DBError :=
  if titleFails ad then some .invalidTitleLength
  else if textFails ad then some .invalidTextLength
  else if imageFails ad then some .invalidImageURL
  else if priceFails ad then some .invalidPrice
  else if userIDFails ad then some .invalidUserID
  else none

/-- The five field checks of `validateAd` in source order, each paired with
the error it reports. -/
def adChecks (ad : AdInput) : List (Bool × DBError) :=
  [ (titleFails ad, .invalidTitleLength),
    (textFails ad, .invalidTextLength),
    (imageFails ad, .invalidImageURL),
    (priceFails ad, .invalidPrice),
    (userIDFails ad, .invalidUserID) ]

/-! ### The relational store

The two tables of `CreateDb` (internal/db/db_test.go constants, executed by
`NewDBService`): `users(id SERIAL UNIQUE login, password, created_at)` and
`ads(id SERIAL, title, text, image_url, price, user_id REFERENCES users,
created_at)`.  `SERIAL` ids are modelled by a next-id counter; the
`CURRENT_TIMESTAMP` default by a `now` argument threaded into the insert
operations. -/

/-- A row of the `users` table. -/
structure UserRow where
  id : Int
  login : String
  password : String
  createdAt : Int
  deriving DecidableEq, Repr

/-- A row of the `ads` table (as stored: no author, no is-mine flag). -/
structure AdRow where
  id : Int
  title : String
  text : String
  imageURL : String
  price : Int
  userID : Int
  createdAt : Int
  deriving DecidableEq, Repr

/-- The store's state: the two tables and the two `SERIAL` counters. -/
structure DBState where
  users : List UserRow
  ads : List AdRow
  nextUserId : Int
  nextAdId : Int
  deriving DecidableEq, Repr

/-- A PostgreSQL value as pgx delivers it to `Scan`. -/
inductive SQLValue where
  | intV (n : Int)
  | strV (s : String)
  | timeV (t : Int)
  | boolV (b : Bool)
  deriving DecidableEq, Repr

/-- The row produced by the SQL constant `QueryGetUserByLogin`
(`SELECT id, login, password, created_at FROM users WHERE login = $1`):
four columns, or no row when the login is absent. -/
def queryGetUserByLogin (db : DBState) (login : String) : Option (List SQLValue) :=
  (db.users.find? (fun u => u.login == login)).map
    (fun u => [.intV u.id, .strV u.login, .strV u.password, .timeV u.createdAt])

/-- Go `DBService.UserByLogin`: runs `QueryGetUserByLogin` and calls
`Scan(&user.ID, &user.Login, &user.CreatedAt)` — three destinations.  pgx v5
`Rows.Scan` requires the destination count to equal the column count
("number of field descriptions must equal number of destinations") and the
query selects four columns, so scanning an existing user's row fails; the
`User.Password` destination is never scanned at all. -/
def UserByLogin (db : DBState) (login : String) : Except String UserRow :=
  match queryGetUserByLogin db login with
  | none => .error "user not found: no rows in result set"
  | some row =>
    match row with
    | [.intV i, .strV l, .timeV t] => .ok ⟨i, l, "", t⟩
    | _ =>
      .error "failed to get user: number of field descriptions must equal number of destinations, got 4 and 3"

/-- Model of the external library golang.org/x/crypto/bcrypt:
`GenerateFromPassword` is an opaque salted hash from which only the original
password verifies.  The model makes the hash string determined by the
password; all the repository code needs is that `CompareHashAndPassword`
succeeds exactly on the hashed password and that a hash is never equal to
the empty string. -/
def bcryptHash (password : String) : String := "$2a$10$" ++ password

/-- Model of bcrypt `CompareHashAndPassword` returning nil. -/
def bcryptCompareOk (hash password : String) : Bool := hash == bcryptHash password

/-- Go `DBService.CreateUser`: `QueryCreateUser` inserts
`(login, password)` and returns `id, login, created_at`, scanned into three
destinations (counts match).  The unique constraint on `login` and the
`VARCHAR(20)` / `VARCHAR(255)` column widths make the insert fail first. -/
def CreateUser (db : DBState) (login hashed : String) (now : Int) :
    DBState × Except String UserRow :=
  if db.users.any (fun u => u.login == login) then
    (db, .error "failed to create user: duplicate key value violates unique constraint")
  else if login.length > 20 || hashed.length > 255 then
    (db, .error "failed to create user: value too long for type character varying")
  else
    let u : UserRow := ⟨db.nextUserId, login, hashed, now⟩
    ({ db with users := db.users ++ [u], nextUserId := db.nextUserId + 1 },
     .ok ⟨u.id, u.login, "", u.createdAt⟩)

/-- Go error constant `ErrPasswordLength`. -/
def ErrPasswordLength : String := "password must be between 8 and 72 characters"

/-- Go `AuthService.Register`: reject a password outside 8..72 bytes, hash it
with bcrypt, store via `CreateUser`. -/
def Register (db : DBState) (login password : String) (now : Int) :
    DBState × Except String UserRow :=
  if goLen password < 8 || goLen password > 72 then
    (db, .error ErrPasswordLength)
  else CreateUser db login (bcryptHash password) now

/-- Go `AuthService.Authenticate`: look the user up by login, verify the
password against the stored hash, and on success build the claim set that is
signed into the token (`user_id`, `iat`, `nbf`, `exp = iat + 24h`, `iss`,
`aud`).  The token is modelled by its signed claim payload. -/
def Authenticate (db : DBState) (login password : String) (now : Int) :
    Except String ClaimMap :=
  match UserByLogin db login with
  | .error e => .error e
  | .ok user =>
    if bcryptCompareOk user.password password then
      .ok [ ("user_id", .num (user.id : Rat)),
            ("iat", .num (now : Rat)),
            ("nbf", .num (now : Rat)),
            ("exp", .num ((now + 86400 : Int) : Rat)),
            ("iss", .str Issuer),
            ("aud", .str Audience) ]
    else .error "crypto/bcrypt: hashedPassword is not the hash of the given password"

/-! ### `CreateAd` and `Ads` (internal/db/db.go with the SQL constants) -/

/-- An ad as the read queries return it: the stored columns joined with the
owner's login and the computed `is_mine` flag. -/
structure AdView where
  id : Int
  title : String
  text : String
  imageURL : String
  price : Int
  userID : Int
  createdAt : Int
  author : String
  isMine : Bool
  deriving DecidableEq, Repr

/-- Go `DBService.CreateAd`: `validateAd` first; then `QueryGetUserById`
checks the owner exists (`ErrUserNotFound` on no rows); then `QueryCreateAd`
inserts and returns the row with `(SELECT login FROM users WHERE id = $5)` as
author and `CASE WHEN user_id = $5 THEN true ELSE false END` as `is_mine`
(always true at creation).  The `VARCHAR(100)` / `VARCHAR(200)` widths of
`title` / `image_url` bound the insert.  The state is returned unchanged on
every failure. -/
def CreateAd (db : DBState) (ad : AdInput) (now : Int) :
    DBState × Except DBError AdView :=
  match validateAd ad with
  | some e => (db, .error e)
  | none =>
    match db.users.find? (fun u => u.id == ad.userID) with
    | none => (db, .error .userNotFound)
    | some owner =>
      if ad.title.length > 100 || ad.imageURL.length > 200 then
        (db, .error (.queryFailed "value too long for type character varying"))
      else
        let row : AdRow :=
          ⟨db.nextAdId, ad.title, ad.text, ad.imageURL, ad.price, ad.userID, now⟩
        ({ db with ads := db.ads ++ [row], nextAdId := db.nextAdId + 1 },
         .ok ⟨row.id, row.title, row.text, row.imageURL, row.price, row.userID,
              row.createdAt, owner.login, true⟩)

/-- The SQL text of the constant `QueryGetAds`, with the two `%s` verbs for
the sort column and direction. -/
def QueryGetAds : String :=
  "\n        SELECT a.id, a.title, a.text, a.image_url, a.price, a.user_id, a.created_at,\n               u.login,\n               CASE WHEN a.user_id = $1 THEN true ELSE false END AS is_mine\n        FROM ads a\n        JOIN users u ON a.user_id = u.id\n        WHERE a.price >= $2 AND a.price <= $3\n        ORDER BY a.%s %s\n        LIMIT $4 OFFSET $5\n    "

/-- Go `fmt.Sprintf` restricted to `%s` verbs: each `%s` is replaced by the
next argument. -/
def sprintfS : List Char → List String → List Char
  | [], _ => []
  | '%' :: 's' :: rest, a :: args => a.data ++ sprintfS rest args
  | c :: rest, args => c :: sprintfS rest args

/-- The query text `Ads` interpolates:
`fmt.Sprintf(QueryGetAds, sortBy, sortOrder)`. -/
def adsQueryText (sortBy sortOrder : String) : String :=
  ⟨sprintfS QueryGetAds.data [sortBy, sortOrder]⟩

/-- The two parameter checks at the head of Go `DBService.Ads`, run before
any query text is built. -/
def adsValidated (sortBy sortOrder : String) : Option DBError :=
  if sortBy ≠ "created_at" && sortBy ≠ "price" then some .invalidSortBy
  else if sortOrder ≠ "ASC" && sortOrder ≠ "DESC" then some .invalidSortOrder
  else none

/-- The query string `Ads` sends to the store, `none` when validation rejects
the parameters before interpolation. -/
def adsQuery (sortBy sortOrder : String) : Option String :=
  match adsValidated sortBy sortOrder with
  | some _ => none
  | none => some (adsQueryText sortBy sortOrder)

/-- The sort key `ORDER BY a.%s` reads from a joined row: `created_at` or
`price` (only those two reach the query). -/
def sortKey (sortBy : String) (v : AdView) : Int :=
  if sortBy == "price" then v.price else v.createdAt

/-- The comparison `ORDER BY a.<sortBy> <sortOrder>` induces. -/
def viewLE (sortBy sortOrder : String) (x y : AdView) : Bool :=
  if sortOrder == "DESC" then sortKey sortBy y ≤ sortKey sortBy x
  else sortKey sortBy x ≤ sortKey sortBy y

/-- Insert into a sorted list (ties keep earlier elements first; the spec
leaves tie order store-defined). -/
def insertSorted (le : AdView → AdView → Bool) (x : AdView) :
    List AdView → List AdView
  | [] => [x]
  | y :: ys => if le y x then y :: insertSorted le x ys else x :: y :: ys

/-- Stable insertion sort: the model of the store's `ORDER BY`. -/
def sortViews (le : AdView → AdView → Bool) : List AdView → List AdView
  | [] => []
  | x :: xs => insertSorted le x (sortViews le xs)

/-- The `JOIN users u ON a.user_id = u.id` of `QueryGetAds`, with the
`is_mine` flag computed against `$1 = userID`: each stored ad joined with its
owner (an inner join: an ad without an owner row yields nothing). -/
def joinedViews (db : DBState) (userID : Int) : List AdView :=
  db.ads.filterMap (fun a =>
    (db.users.find? (fun u => u.id == a.userID)).map (fun u =>
      ⟨a.id, a.title, a.text, a.imageURL, a.price, a.userID, a.createdAt,
       u.login, a.userID == userID⟩))

/-- The `WHERE a.price >= $2 AND a.price <= $3` filter of `QueryGetAds`
(`$2`, `$3` are the Go `float64` parameters). -/
def filteredViews (db : DBState) (userID : Int) (minP maxP : Rat) : List AdView :=
  (joinedViews db userID).filter
    (fun v => decide (minP ≤ (v.price : Rat)) && decide ((v.price : Rat) ≤ maxP))

/-- Executing the interpolated `QueryGetAds`: filter, join, order, then
`LIMIT $4 OFFSET $5` (PostgreSQL rejects negative limit or offset). -/
def runGetAds (db : DBState) (userID : Int) (minP maxP : Rat)
    (sortBy sortOrder : String) (limit offset : Int) :
    Except String (List AdView) :=
  if offset < 0 then .error "OFFSET must not be negative"
  else if limit < 0 then .error "LIMIT must not be negative"
  else
    .ok (((sortViews (viewLE sortBy sortOrder)
      (filteredViews db userID minP maxP)).drop offset.toNat).take limit.toNat)

/-- Go `DBService.Ads`: validate `sortBy` and `sortOrder`, compute
`offset := (page - 1) * size`, interpolate and run the query, and collect the
scanned rows (nine columns, nine destinations). -/
def Ads (db : DBState) (userID : Int) (page size : Int)
    (sortBy sortOrder : String) (minP maxP : Rat) :
    Except DBError (List AdView) :=
  match adsValidated sortBy sortOrder with
  | some e => .error e
  | none =>
    match runGetAds db userID minP maxP sortBy sortOrder size ((page - 1) * size) with
    | .error m => .error (.queryFailed m)
    | .ok l => .ok l

/-! ### JSON serialization of `User` (its struct tags) -/

/-- A serialized JSON field value (time.Time marshals separately from numbers;
its exact text does not matter here). -/
inductive JsonField where
  | jnum (n : Int)
  | jstr (s : String)
  | jtime (t : Int)
  deriving DecidableEq, Repr

/-- Go `encoding/json` marshalling of the `User` struct, field by field per
its tags: `ID` tagged `json:"id"`, `Login` tagged `json:"login"`,
`Password` tagged `json:"-"` (skipped entirely), `CreatedAt` tagged
`json:"created_at"`. -/
def marshalUser (u : UserRow) : List (String × JsonField) :=
  [("id", .jnum u.id), ("login", .jstr u.login), ("created_at", .jtime u.createdAt)]

/-! ### Concrete inputs used by witnesses and counterexamples -/

/-- The rational 5/2, a positive non-integer JSON number. -/
def q52 : Rat := ⟨5, 2, by decide, by decide⟩

/-- A claim set with valid registered claims but no `nbf` and no `iat`. -/
def cNoNbfIat : ClaimMap :=
  [("exp", .num 100), ("iss", .str Issuer), ("aud", .str Audience)]

/-- The empty claim set (no `exp` at all). -/
def cEmptyClaims : ClaimMap := []

/-- Valid registered claims with the fractional subject 5/2. -/
def cFracSubject : ClaimMap :=
  [("user_id", .num q52), ("iat", .num 0), ("nbf", .num 0),
   ("exp", .num 100), ("iss", .str Issuer), ("aud", .str Audience)]

/-- Valid registered claims with the negative subject -3. -/
def cNegSubject : ClaimMap :=
  [("user_id", .num (-3)), ("iat", .num 0), ("nbf", .num 0),
   ("exp", .num 100), ("iss", .str Issuer), ("aud", .str Audience)]

/-- The empty store. -/
def dbEmpty : DBState := ⟨[], [], 1, 1⟩

/-- A fully valid ad input owned by user 1. -/
def adValid : AdInput :=
  ⟨"Valid Title", "Valid text content for ad", "https://example.com/image.png", 1000, 1⟩

/-- An ad whose (trimmed) title has length 1. -/
def adBadTitle : AdInput := ⟨"A", "Valid text", "", 1000, 1⟩

/-- An ad whose image URL `url.ParseRequestURI` rejects (no scheme, not a
rooted path). -/
def adBadURL : AdInput := ⟨"Valid Title", "Valid text", "not-a-url", 1000, 1⟩

/-- An ad whose image URL is a rooted path: not an absolute URI, yet accepted
by `url.ParseRequestURI`. -/
def adRootedPath : AdInput := ⟨"Valid Title", "Valid text", "/img.png", 1000, 1⟩

/-- A store holding one user (login "alice", id 1) and no ads. -/
def dbOneUser : DBState := ⟨[⟨1, "alice", "hash-a", 0⟩], [], 2, 1⟩

/-- A store holding one user and one ad (price 1000, owner 1). -/
def dbOneAd : DBState :=
  ⟨[⟨1, "u1", "hash-1", 0⟩], [⟨1, "Ad1", "Text one", "", 1000, 1, 5⟩], 2, 2⟩

/-- The store `dbOneUser` after `CreateAd` of `adValid` at time 7. -/
def dbAfterCreate : DBState :=
  ⟨[⟨1, "alice", "hash-a", 0⟩],
   [⟨1, "Valid Title", "Valid text content for ad",
     "https://example.com/image.png", 1000, 1, 7⟩], 2, 2⟩

/-- The ad view `CreateAd dbOneUser adValid 7` returns. -/
def createdValid : AdView :=
  ⟨1, "Valid Title", "Valid text content for ad",
   "https://example.com/image.png", 1000, 1, 7, "alice", true⟩

/-- Unfolding of `validateTokenClaims` into the flat chain of the six checks. -/
theorem validateTokenClaims_eq_chain (c : ClaimMap) (now : Int) :
    validateTokenClaims c now =
      (if expFails c now then .error .tokenExpired
       else if nbfFails c now then .error .tokenNotYetValid
       else if iatFails c now then .error .tokenIssuedFuture
       else if issFails c then .error .invalidIssuer
       else if audFails c then .error .invalidAudience
       else if subjectFails c then .error .invalidUserID
       else .ok (toInt64 ((asNum (getClaim c "user_id")).getD 0))) := by
  unfold validateTokenClaims validateRegisteredClaims
  by_cases he : expFails c now <;> simp [he]
  by_cases hn : nbfFails c now <;> simp [hn]
  by_cases hi : iatFails c now <;> simp [hi]
  by_cases hs : issFails c <;> simp [hs]
  by_cases ha : audFails c <;> simp [ha]
  cases hq : asNum (getClaim c "user_id") with
  | none => simp [subjectFails, hq]
  | some uid =>
    by_cases hle : uid ≤ 0 <;> simp [subjectFails, hq, hle]

/-- C2: on a structurally valid token, the registered-claim checks and the
subject check run sequentially in the order expiry, not-before,
issued-in-future, issuer, audience, subject, and the error reported is that of
the first failing check in this order (`List.find?` over the checks in source
order). -/
theorem token_first_failing_check_wins (c : ClaimMap) (now : Int) :
    validateTokenClaims c now =
      match (claimChecks c now).find? (fun p => p.1) with
      | some p => .error p.2
      | none => .ok (toInt64 ((asNum (getClaim c "user_id")).getD 0)) := by
  rw [validateTokenClaims_eq_chain]
  unfold claimChecks
  by_cases he : expFails c now <;>
  by_cases hn : nbfFails c now <;>
  by_cases hi : iatFails c now <;>
  by_cases hs : issFails c <;>
  by_cases ha : audFails c <;>
  by_cases hu : subjectFails c <;>
    simp [he, hn, hi, hs, ha, hu, List.find?]

/-- C10: a claim set lacking `nbf` entirely passes the not-before check, one
lacking `iat` entirely passes the issued-in-future check (those checks fire
only when the claim is present as a number), and one lacking `exp` entirely is
rejected with the token-expired error. -/
theorem missing_claims_behavior (c : ClaimMap) (now : Int) :
    (getClaim c "nbf" = none → nbfFails c now = false) ∧
    (getClaim c "iat" = none → iatFails c now = false) ∧
    (getClaim c "exp" = none → validateRegisteredClaims c now = some .tokenExpired) := by
  refine ⟨?_, ?_, ?_⟩ <;> intro h
  · simp [nbfFails, h, asNum]
  · simp [iatFails, h, asNum]
  · simp [validateRegisteredClaims, expFails, h, asNum]

/-- Witness for `missing_claims_behavior` at the concrete claim sets
`cNoNbfIat` (no `nbf`, no `iat`) and `cEmptyClaims` (no `exp`). -/
theorem missing_claims_behavior_witness :
    nbfFails cNoNbfIat 0 = false ∧ iatFails cNoNbfIat 0 = false ∧
    validateRegisteredClaims cEmptyClaims 0 = some .tokenExpired :=
  ⟨(missing_claims_behavior cNoNbfIat 0).1 (by decide),
   (missing_claims_behavior cNoNbfIat 0).2.1 (by decide),
   (missing_claims_behavior cEmptyClaims 0).2.2 (by decide)⟩

/-- C5 (amended): once the registered claims pass, the subject check reports
the invalid-subject error exactly when `user_id` is absent, not a JSON number,
or a number `≤ 0`; a positive number — integral or not — is accepted, and the
returned id is its truncation toward zero. -/
theorem subject_check_characterization (c : ClaimMap) (now : Int)
    (h : validateRegisteredClaims c now = none) :
    (validateTokenClaims c now = .error .invalidUserID ↔
      asNum (getClaim c "user_id") = none ∨
        ∃ q, asNum (getClaim c "user_id") = some q ∧ q ≤ 0) ∧
    (∀ q, asNum (getClaim c "user_id") = some q → 0 < q →
      validateTokenClaims c now = .ok (toInt64 q)) := by
  unfold validateTokenClaims
  rw [h]
  constructor
  · cases hq : asNum (getClaim c "user_id") with
    | none => simp
    | some q => by_cases hle : q ≤ 0 <;> simp [hle]
  · intro q hq hpos
    rw [hq]
    simp [not_le.mpr hpos]

/-- Witness for `subject_check_characterization`: the claim set `cNegSubject`
(subject -3) is rejected with the invalid-subject error. -/
theorem subject_check_witness :
    validateTokenClaims cNegSubject 0 = .error .invalidUserID :=
  ((subject_check_characterization cNegSubject 0 (by decide)).1).mpr
    (.inr ⟨-3, by decide, by decide⟩)

/-- C5 counterexample: the claim set `cFracSubject` carries the non-integer
subject 5/2; its registered claims pass, yet `ValidateToken` does not fail
with the invalid-subject error — it returns the truncated id 2. -/
theorem fractional_subject_accepted :
    q52.den ≠ 1 ∧ validateRegisteredClaims cFracSubject 0 = none ∧
    validateTokenClaims cFracSubject 0 = .ok 2 :=
  ⟨by decide, by decide, by rfl⟩

/-- C1 (code bug): after a successful `Register` of the 11-byte password
"password123", `Authenticate` with the very same credentials fails:
`UserByLogin` scans the four selected columns into three destinations, so the
lookup errors (and the stored hash is never read).  The spec and the
repository's own tests expect success. -/
theorem authenticate_after_register_fails :
    (Register dbEmpty "testuser" "password123" 0).2 =
      .ok ⟨1, "testuser", "", 0⟩ ∧
    Authenticate (Register dbEmpty "testuser" "password123" 0).1
        "testuser" "password123" 0 =
      .error "failed to get user: number of field descriptions must equal number of destinations, got 4 and 3" := by
  constructor <;> rfl

/-- C3: `validateAd` reports the error of the first failing field check in
the order title, text, image URL, price, owning user id (`List.find?` over the
checks in source order); `CreateAd` returns any validation error with the
store untouched; and only once validation passes is the owner looked up, a
missing owner failing with the user-not-found error, again with the store
untouched (no ad inserted). -/
theorem createAd_validation_order (db : DBState) (ad : AdInput) (now : Int) :
    validateAd ad = ((adChecks ad).find? (fun p => p.1)).map Prod.snd ∧
    (∀ e, validateAd ad = some e → CreateAd db ad now = (db, .error e)) ∧
    (validateAd ad = none →
      db.users.find? (fun u => u.id == ad.userID) = none →
      CreateAd db ad now = (db, .error .userNotFound)) := by
  refine ⟨?_, ?_, ?_⟩
  · unfold validateAd adChecks
    by_cases h1 : titleFails ad <;>
    by_cases h2 : textFails ad <;>
    by_cases h3 : imageFails ad <;>
    by_cases h4 : priceFails ad <;>
    by_cases h5 : userIDFails ad <;>
      simp [h1, h2, h3, h4, h5, List.find?]
  · intro e he
    unfold CreateAd
    rw [he]
  · intro hval hown
    unfold CreateAd
    rw [hval, hown]

/-- Witness for `createAd_validation_order`: a length-1 title fails with the
title error and no state change; a fully valid ad against the empty store
fails with the user-not-found error and no state change. -/
theorem createAd_validation_order_witness :
    CreateAd dbEmpty adBadTitle 0 = (dbEmpty, .error .invalidTitleLength) ∧
    CreateAd dbEmpty adValid 0 = (dbEmpty, .error .userNotFound) :=
  ⟨(createAd_validation_order dbEmpty adBadTitle 0).2.1 _ (by rfl),
   (createAd_validation_order dbEmpty adValid 0).2.2 (by rfl) (by rfl)⟩

/-- C6 (amended): with title and text valid, `validateAd` fails with the
image-URL error exactly when the image URL is non-empty and rejected by Go's
`url.ParseRequestURI` (which accepts rooted paths besides absolute URIs); an
empty image URL never triggers the image check. -/
theorem image_url_check (ad : AdInput)
    (h1 : titleFails ad = false) (h2 : textFails ad = false) :
    (validateAd ad = some .invalidImageURL ↔
      ad.imageURL ≠ "" ∧ parseRequestURIOk ad.imageURL = false) ∧
    (ad.imageURL = "" → validateAd ad ≠ some .invalidImageURL) := by
  have hiff : imageFails ad = true ↔
      (ad.imageURL ≠ "" ∧ parseRequestURIOk ad.imageURL = false) := by
    unfold imageFails
    simp
  constructor
  · unfold validateAd
    rw [h1, h2]
    by_cases h3 : imageFails ad
    · simp [h3, hiff.mp h3]
    · have hnot := fun hand => h3 (hiff.mpr hand)
      by_cases h4 : priceFails ad <;> by_cases h5 : userIDFails ad <;>
        simp [h3, h4, h5, hnot] <;>
        intro hne <;>
        cases hp : parseRequestURIOk ad.imageURL <;>
        first
        | rfl
        | exact absurd ⟨hne, hp⟩ hnot
  · intro hempty
    have h3 : imageFails ad = false := by
      unfold imageFails
      rw [hempty]
      simp
    unfold validateAd
    rw [h1, h2, h3]
    by_cases h4 : priceFails ad <;> by_cases h5 : userIDFails ad <;>
      simp [h4, h5]

/-- Witness for `image_url_check`: the URL "not-a-url" (no scheme, not
rooted) makes `validateAd` fail with the image-URL error. -/
theorem image_url_check_witness :
    validateAd adBadURL = some .invalidImageURL :=
  ((image_url_check adBadURL (by rfl) (by rfl)).1).mpr ⟨by decide, by rfl⟩

/-- C6 counterexample: the rooted path "/img.png" is not an absolute URI, yet
`url.ParseRequestURI` accepts it and `validateAd` passes the ad — the check is
not "valid absolute URI or fail". -/
theorem rooted_path_image_accepted :
    isAbsoluteURI "/img.png" = false ∧
    parseRequestURIOk "/img.png" = true ∧
    validateAd adRootedPath = none :=
  ⟨by rfl, by rfl, by rfl⟩

/-- C4: `Ads` rejects a `sortBy` other than exactly "created_at" or "price"
with the invalid-sort-field error, rejects a `sortOrder` other than exactly
"ASC" or "DESC" (case-sensitive) with the invalid-sort-order error, in both
cases before any query text is interpolated (`adsQuery` = none), and every
query string it does interpolate is one of the four allowlisted
combinations. -/
theorem ads_sort_allowlist (db : DBState) (uid page size : Int)
    (sb so : String) (minP maxP : Rat) :
    (¬(sb = "created_at" ∨ sb = "price") →
      Ads db uid page size sb so minP maxP = .error .invalidSortBy ∧
      adsQuery sb so = none) ∧
    ((sb = "created_at" ∨ sb = "price") → ¬(so = "ASC" ∨ so = "DESC") →
      Ads db uid page size sb so minP maxP = .error .invalidSortOrder ∧
      adsQuery sb so = none) ∧
    (∀ q, adsQuery sb so = some q →
      q = adsQueryText "created_at" "ASC" ∨ q = adsQueryText "created_at" "DESC" ∨
      q = adsQueryText "price" "ASC" ∨ q = adsQueryText "price" "DESC") := by
  refine ⟨?_, ?_, ?_⟩
  · intro h
    push_neg at h
    constructor <;> simp [Ads, adsQuery, adsValidated, h.1, h.2]
  · intro hsb hso
    push_neg at hso
    have hv : adsValidated sb so = some .invalidSortOrder := by
      cases hsb with
      | inl h => simp [adsValidated, h, hso.1, hso.2]
      | inr h => simp [adsValidated, h, hso.1, hso.2]
    constructor <;> simp [Ads, adsQuery, hv]
  · intro q hq
    unfold adsQuery at hq
    cases hv : adsValidated sb so with
    | some e => rw [hv] at hq; cases hq
    | none =>
      rw [hv] at hq
      have hqe : q = adsQueryText sb so := by
        injection hq with h
        exact h.symm
      have hsb : sb = "created_at" ∨ sb = "price" := by
        by_contra hc
        push_neg at hc
        simp [adsValidated, hc.1, hc.2] at hv
      have hso : so = "ASC" ∨ so = "DESC" := by
        by_contra hc
        push_neg at hc
        rcases hsb with h | h <;> simp [adsValidated, h, hc.1, hc.2] at hv
      subst hqe
      rcases hsb with h | h <;> rcases hso with h2 | h2 <;> subst h <;> subst h2
      · exact Or.inl rfl
      · exact Or.inr (Or.inl rfl)
      · exact Or.inr (Or.inr (Or.inl rfl))
      · exact Or.inr (Or.inr (Or.inr rfl))

/-- Witness for `ads_sort_allowlist`: the lowercase "asc" is rejected with the
invalid-sort-order error, and a misspelled sort field with the
invalid-sort-field error. -/
theorem ads_sort_allowlist_witness :
    Ads dbEmpty 1 1 10 "price" "asc" 0 100 = .error .invalidSortOrder ∧
    Ads dbEmpty 1 1 10 "created at" "ASC" 0 100 = .error .invalidSortBy :=
  ⟨((ads_sort_allowlist dbEmpty 1 1 10 "price" "asc" 0 100).2.1
      (Or.inr rfl) (by simp)).1,
   ((ads_sort_allowlist dbEmpty 1 1 10 "created at" "ASC" 0 100).1 (by simp)).1⟩

/-- Membership is invariant under `insertSorted`. -/
theorem mem_insertSorted (le : AdView → AdView → Bool) (x a : AdView)
    (l : List AdView) : a ∈ insertSorted le x l ↔ a = x ∨ a ∈ l := by
  induction l with
  | nil => simp [insertSorted]
  | cons y ys ih =>
    by_cases h : le y x
    · simp only [insertSorted, h, if_true, List.mem_cons, ih]
      tauto
    · simp only [insertSorted, h, if_false, Bool.false_eq_true, List.mem_cons]

/-- Membership is invariant under `sortViews` (`ORDER BY` permutes). -/
theorem mem_sortViews (le : AdView → AdView → Bool) (a : AdView)
    (l : List AdView) : a ∈ sortViews le l ↔ a ∈ l := by
  induction l with
  | nil => simp [sortViews]
  | cons x xs ih => simp [sortViews, mem_insertSorted, ih]

/-- `insertSorted` grows the length by one. -/
theorem length_insertSorted (le : AdView → AdView → Bool) (x : AdView)
    (l : List AdView) : (insertSorted le x l).length = l.length + 1 := by
  induction l with
  | nil => rfl
  | cons y ys ih => by_cases h : le y x <;> simp [insertSorted, h, ih]

/-- `sortViews` preserves the length. -/
theorem length_sortViews (le : AdView → AdView → Bool) (l : List AdView) :
    (sortViews le l).length = l.length := by
  induction l with
  | nil => rfl
  | cons x xs ih => simp [sortViews, length_insertSorted, ih]

/-- With valid sort parameters, a 1-based page and a nonnegative size, `Ads`
succeeds and returns the filtered, ordered rows from offset
`(page - 1) * size`, at most `size` of them. -/
theorem Ads_ok (db : DBState) (uid page size : Int) (sb so : String)
    (minP maxP : Rat)
    (hsb : sb = "created_at" ∨ sb = "price")
    (hso : so = "ASC" ∨ so = "DESC")
    (hpage : 1 ≤ page) (hsize : 0 ≤ size) :
    Ads db uid page size sb so minP maxP =
      .ok (((sortViews (viewLE sb so) (filteredViews db uid minP maxP)).drop
        ((page - 1) * size).toNat).take size.toNat) := by
  have hv : adsValidated sb so = none := by
    rcases hsb with h | h <;> rcases hso with h2 | h2 <;>
      simp [adsValidated, h, h2]
  have hoff : ¬((page - 1) * size < 0) :=
    not_lt.mpr (mul_nonneg (by omega) hsize)
  have hlim : ¬(size < 0) := not_lt.mpr hsize
  unfold Ads runGetAds
  rw [hv]
  simp [hoff, hlim]

/-- C7: for a valid listing request (allowlisted sort parameters, 1-based
page, nonnegative size), `Ads` returns — rather than errs — the ordered rows
after dropping exactly `(page - 1) * size` of them (page is 1-indexed), every
returned row's price lies in the inclusive band `minP ≤ price ≤ maxP`, and an
empty filter result yields the empty list, not an error. -/
theorem ads_pagination_and_filter (db : DBState) (uid page size : Int)
    (sb so : String) (minP maxP : Rat)
    (hsb : sb = "created_at" ∨ sb = "price")
    (hso : so = "ASC" ∨ so = "DESC")
    (hpage : 1 ≤ page) (hsize : 0 ≤ size) :
    Ads db uid page size sb so minP maxP =
      .ok (((sortViews (viewLE sb so) (filteredViews db uid minP maxP)).drop
        ((page - 1) * size).toNat).take size.toNat) ∧
    (∀ l, Ads db uid page size sb so minP maxP = .ok l →
      ∀ v ∈ l, minP ≤ (v.price : Rat) ∧ (v.price : Rat) ≤ maxP) ∧
    (filteredViews db uid minP maxP = [] →
      Ads db uid page size sb so minP maxP = .ok []) := by
  have hok := Ads_ok db uid page size sb so minP maxP hsb hso hpage hsize
  refine ⟨hok, ?_, ?_⟩
  · intro l hl v hv
    rw [hok] at hl
    injection hl with hl
    subst hl
    have hv2 : v ∈ filteredViews db uid minP maxP :=
      (mem_sortViews _ v _).mp (List.mem_of_mem_drop (List.mem_of_mem_take hv))
    have := (List.mem_filter.mp hv2).2
    simp only [Bool.and_eq_true, decide_eq_true_eq] at this
    exact this
  · intro hempty
    rw [hok, hempty]
    simp [sortViews]

/-- Witness for `ads_pagination_and_filter` at the store `dbOneAd` (one ad
priced 1000), page 1, size 10, sorted by price ascending, band 0..10000. -/
theorem ads_pagination_and_filter_witness :
    Ads dbOneAd 1 1 10 "price" "ASC" 0 10000 =
      .ok (((sortViews (viewLE "price" "ASC")
        (filteredViews dbOneAd 1 0 10000)).drop
          ((((1 : Int) - 1) * 10).toNat)).take ((10 : Int).toNat)) ∧
    (∀ l, Ads dbOneAd 1 1 10 "price" "ASC" 0 10000 = .ok l →
      ∀ v ∈ l, (0 : Rat) ≤ (v.price : Rat) ∧ (v.price : Rat) ≤ 10000) ∧
    (filteredViews dbOneAd 1 0 10000 = [] →
      Ads dbOneAd 1 1 10 "price" "ASC" 0 10000 = .ok []) :=
  ads_pagination_and_filter dbOneAd 1 1 10 "price" "ASC" 0 10000
    (Or.inr rfl) (Or.inl rfl) (by decide) (by decide)

/-- C8: an ad successfully created by `CreateAd` and listed through `Ads`
(page 1, a size covering the store, a price band containing it) appears in
the result as a row whose `is_mine` flag is true exactly when the requesting
user id equals the owner's, and whose author is the owner's login (the login
`CreateAd` returned as author). -/
theorem created_ad_round_trip (db db' : DBState) (ad : AdInput) (now : Int)
    (created : AdView) (uid size : Int)
    (hc : CreateAd db ad now = (db', .ok created))
    (sb so : String)
    (hsb : sb = "created_at" ∨ sb = "price")
    (hso : so = "ASC" ∨ so = "DESC")
    (minP maxP : Rat)
    (hmin : minP ≤ (created.price : Rat)) (hmax : (created.price : Rat) ≤ maxP)
    (hs0 : 0 ≤ size) (hsz : db'.ads.length ≤ size.toNat) :
    ∃ l, Ads db' uid 1 size sb so minP maxP = .ok l ∧
      ∃ v ∈ l, v.id = created.id ∧ v.author = created.author ∧
        v.isMine = (created.userID == uid) := by
  unfold CreateAd at hc
  cases hval : validateAd ad <;> simp only [hval] at hc
  case some e => simp [Prod.ext_iff] at hc
  cases hown : db.users.find? (fun u => u.id == ad.userID) <;>
    simp only [hown] at hc
  case none => simp [Prod.ext_iff] at hc
  case some owner =>
  by_cases hlen : (ad.title.length > 100 || ad.imageURL.length > 200 : Bool)
  · rw [if_pos hlen] at hc
    simp [Prod.ext_iff] at hc
  rw [if_neg hlen] at hc
  simp only [Prod.mk.injEq, Except.ok.injEq] at hc
  obtain ⟨hdb, hcr⟩ := hc
  subst hdb
  subst hcr
  set row : AdRow :=
    ⟨db.nextAdId, ad.title, ad.text, ad.imageURL, ad.price, ad.userID, now⟩ with hrow
  set v : AdView :=
    ⟨db.nextAdId, ad.title, ad.text, ad.imageURL, ad.price, ad.userID, now,
      owner.login, ad.userID == uid⟩ with hview
  set db2 : DBState :=
    { db with ads := db.ads ++ [row], nextAdId := db.nextAdId + 1 } with hdb2
  have hjoined : v ∈ joinedViews db2 uid := by
    refine List.mem_filterMap.mpr ⟨row, ?_, ?_⟩
    · simp [hdb2]
    · show (db2.users.find? (fun u => u.id == row.userID)).map _ = some v
      have : db2.users.find? (fun u => u.id == row.userID) = some owner := hown
      rw [this]
      rfl
  have hfiltered : v ∈ filteredViews db2 uid minP maxP := by
    refine List.mem_filter.mpr ⟨hjoined, ?_⟩
    simp only [Bool.and_eq_true, decide_eq_true_eq]
    exact ⟨hmin, hmax⟩
  have hsorted : v ∈ sortViews (viewLE sb so) (filteredViews db2 uid minP maxP) :=
    (mem_sortViews _ v _).mpr hfiltered
  have hok := Ads_ok db2 uid 1 size sb so minP maxP hsb hso le_rfl hs0
  refine ⟨_, hok, v, ?_, rfl, rfl, rfl⟩
  have hzero : (((1 : Int) - 1) * size).toNat = 0 := by norm_num
  rw [hzero, List.drop_zero]
  have hlength :
      (sortViews (viewLE sb so) (filteredViews db2 uid minP maxP)).length ≤
        size.toNat := by
    rw [length_sortViews]
    calc (filteredViews db2 uid minP maxP).length
        ≤ (joinedViews db2 uid).length := List.length_filter_le _ _
      _ ≤ db2.ads.length := List.length_filterMap_le _ _
      _ ≤ size.toNat := hsz
  rw [List.take_of_length_le hlength]
  exact hsorted

/-- Witness for `created_ad_round_trip`: the ad `adValid` created in
`dbOneUser` and listed by the other requesting user 2. -/
theorem created_ad_round_trip_witness :
    ∃ l, Ads dbAfterCreate 2 1 10 "price" "ASC" 0 10000 = .ok l ∧
      ∃ v ∈ l, v.id = createdValid.id ∧ v.author = createdValid.author ∧
        v.isMine = (createdValid.userID == 2) :=
  created_ad_round_trip dbOneUser dbAfterCreate adValid 7 createdValid 2 10
    (by rfl) "price" "ASC" (Or.inr rfl) (Or.inl rfl) 0 10000
    (by decide) (by decide) (by decide) (by decide)

/-- C9: the JSON serialization of a `User` is independent of the stored
password hash (the `Password` field carries the tag `json:"-"`), and the
serialized fields are exactly id, login and created_at — no password field. -/
theorem password_never_serialized (u v : UserRow)
    (hid : u.id = v.id) (hlogin : u.login = v.login)
    (hts : u.createdAt = v.createdAt) :
    marshalUser u = marshalUser v ∧
    (marshalUser u).map Prod.fst = ["id", "login", "created_at"] := by
  unfold marshalUser
  rw [hid, hlogin, hts]
  exact ⟨rfl, rfl⟩

/-- Witness for `password_never_serialized`: two users equal but for the
stored hash serialize identically. -/
theorem password_never_serialized_witness :
    marshalUser ⟨1, "alice", "hash-a", 0⟩ = marshalUser ⟨1, "alice", "hash-b", 0⟩ ∧
    (marshalUser ⟨1, "alice", "hash-a", 0⟩).map Prod.fst =
      ["id", "login", "created_at"] :=
  password_never_serialized ⟨1, "alice", "hash-a", 0⟩ ⟨1, "alice", "hash-b", 0⟩
    rfl rfl rfl

end MarketGo
